import Mathlib

/-!
Shallow embedding of the evaluation harness of the reproduce-and-implement
repository (src/api_model_evaluator.py and src/local_llm_interface.py).

Python strings are modelled as `List Char`; Python float arithmetic on
accuracies, drops and ratios is modelled as exact rational arithmetic on `ℚ`.
Each definition is translated from the named Python function.
-/

/-- Python `str.lower()` applied characterwise (all inputs of interest are
ASCII, where `Char.toLower` agrees with Python). -/
def lowerChars (s : List Char) : List Char := s.map Char.toLower

/-- Python's substring test `needle in hay` on strings: true iff `needle`
occurs contiguously somewhere in `hay` (always true for an empty needle). -/
def containsSub (hay needle : List Char) : Bool :=
  needle.isPrefixOf hay ||
    match hay with
    | [] => false
    | _ :: t => containsSub t needle

/-- Python `hay.find(needle)`: index of the first occurrence of `needle`
in `hay`, `none` when there is no occurrence (Python returns -1 there). -/
def findSub (hay needle : List Char) : Option Nat :=
  if needle.isPrefixOf hay then some 0
  else
    match hay with
    | [] => none
    | _ :: t => (findSub t needle).map (· + 1)

/-- The whitespace characters removed by Python `str.strip()`. -/
def isPySpace (c : Char) : Bool :=
  c = ' ' || c = '\t' || c = '\n' || c = '\r' || c = '\x0b' || c = '\x0c'

/-- Python `s.strip()`: drop whitespace from both ends. -/
def pyStrip (s : List Char) : List Char :=
  ((s.dropWhile isPySpace).reverse.dropWhile isPySpace).reverse

/-- Python `s.split('.')`: cut at every period, keeping empty fragments,
exactly as `str.split` with an explicit separator does. -/
def splitOnPeriod : List Char → List (List Char)
  | [] => [[]]
  | c :: t =>
    if c = '.' then [] :: splitOnPeriod t
    else
      match splitOnPeriod t with
      | [] => [[c]]
      | h :: r => (c :: h) :: r

/-- The role keyword "knight" as scanned by `_check_logic_answer`. -/
def kKnight : List Char := "knight".toList

/-- The role keyword "knave" as scanned by `_check_logic_answer`. -/
def kKnave : List Char := "knave".toList

/-- The known participant names scanned by
`LargeModelEvaluator._check_logic_answer`, in source order. -/
def kkNames : List (List Char) :=
  ["zoey", "oliver", "william", "evelyn", "xiomara", "zephyrus"].map String.toList

/-- From `_check_logic_answer`: the role extracted for one participant name.
When the name occurs in the lowercased expected string, the 50-character
window starting at its first occurrence is scanned, testing "knight" first
and "knave" only when "knight" is absent from the window; a name whose
window holds neither keyword yields no pair. -/
def roleInWindow (expectedLower name : List Char) : Option (List Char) :=
  match findSub expectedLower name with
  | none => none
  | some i =>
    let window := (expectedLower.drop i).take 50
    if containsSub window kKnight then some kKnight
    else if containsSub window kKnave then some kKnave
    else none

/-- The `(name, role)` pairs `_check_logic_answer` extracts from the
lowercased expected-answer string, scanning the known names in order. -/
def expectedPairsOf (expectedLower : List Char) : List (List Char × List Char) :=
  kkNames.filterMap fun name =>
    match roleInWindow expectedLower name with
    | some role => some (name, role)
    | none => none

/-- From `_check_logic_answer`: one expected pair is satisfied when the name
and the role keyword each occur, independently and anywhere, in the
lowercased response. -/
def matchedPair (responseLower : List Char) (p : List Char × List Char) : Bool :=
  containsSub responseLower p.1 && containsSub responseLower p.2

/-- Embedding of `LargeModelEvaluator._check_logic_answer`. The source
compares `correct_matches >= len(expected_pairs) * 0.8` in IEEE doubles;
`expected_pairs` has at most six entries (one per known name), and for
every pair count up to six that comparison returns exactly the same
verdict as the exact comparison `4 * len <= 5 * matches` used here. -/
def checkLogicAnswer (response expected : List Char) : Bool :=
  let pairs := expectedPairsOf (lowerChars expected)
  let hits := pairs.countP (matchedPair (lowerChars response))
  decide (4 * pairs.length ≤ 5 * hits)

/-- Embedding of the answer check of `evaluate_problems` (inside
`evaluate_counterfactual_with_large_model`):
`str(problem['answer']).lower() in response.lower()`. -/
def checkArithAnswer (response answer : List Char) : Bool :=
  containsSub (lowerChars response) (lowerChars answer)

/-- The memory-cue keywords of `_analyze_memory_reasoning_ratio`. -/
def memoryKeywords : List (List Char) :=
  ["know", "fact", "established", "according to", "defined as",
   "historically", "traditionally", "documented", "recorded",
   "well-known", "commonly known", "recognized as"].map String.toList

/-- The reasoning-cue keywords of `_analyze_memory_reasoning_ratio`. -/
def reasoningKeywords : List (List Char) :=
  ["therefore", "thus", "because", "since", "consequently",
   "analyzing", "considering", "calculating", "reasoning",
   "implies", "suggests", "demonstrates", "proves",
   "step by step", "given that", "if we", "we can conclude"].map String.toList

/-- The sentence units of `_analyze_memory_reasoning_ratio`:
`[s.strip() for s in response.split('.') if len(s.strip()) > 10]`. -/
def sentenceUnits (response : List Char) : List (List Char) :=
  ((splitOnPeriod response).map pyStrip).filter fun s => decide (10 < s.length)

/-- Number of keywords of one cue set occurring in a lowercased sentence
(`sum(1 for kw in keywords if kw in sentence_lower)`). -/
def keywordScore (keywords : List (List Char)) (sentenceLower : List Char) : Nat :=
  keywords.countP fun kw => containsSub sentenceLower kw

/-- Sentence units whose memory score strictly exceeds their reasoning
score (`memory_count` in the source loop). -/
def memoryCount (response : List Char) : Nat :=
  (sentenceUnits response).countP fun s =>
    decide (keywordScore reasoningKeywords (lowerChars s) <
      keywordScore memoryKeywords (lowerChars s))

/-- Sentence units whose reasoning score strictly exceeds their memory
score (`reasoning_count` in the source loop); tied units count for neither. -/
def reasoningCount (response : List Char) : Nat :=
  (sentenceUnits response).countP fun s =>
    decide (keywordScore memoryKeywords (lowerChars s) <
      keywordScore reasoningKeywords (lowerChars s))

/-- Embedding of `LargeModelEvaluator._analyze_memory_reasoning_ratio`:
0.5 when no sentence units survive, 0.5 again when no unit is classified,
otherwise `memory_count / (memory_count + reasoning_count)`. -/
def analyzeMemoryReasoning (response : List Char) : ℚ :=
  if (sentenceUnits response).isEmpty then 1 / 2
  else
    let m := memoryCount response
    let r := reasoningCount response
    if m + r = 0 then 1 / 2
    else (m : ℚ) / (m + r)

/-- Number of cases a family scorer accepts (the `correct` accumulator of
the scoring loops in `evaluate_knights_knaves_with_large_model` and
`evaluate_problems`, which adds at most one per case). -/
def correctCount {α : Type} (score : α → Bool) (cases : List α) : Nat :=
  cases.countP score

/-- The accuracy convention shared by both scoring loops:
`correct / total if total > 0 else 0`. -/
def accuracyOf (correct total : Nat) : ℚ :=
  if 0 < total then (correct : ℚ) / total else 0

/-- Accuracy of one (family, perturbation) group of cases under its scorer. -/
def groupAccuracy {α : Type} (score : α → Bool) (cases : List α) : ℚ :=
  accuracyOf (correctCount score cases) cases.length

/-- The perturbation-drop formula used in both
`evaluate_knights_knaves_with_large_model` and
`evaluate_counterfactual_with_large_model`:
`(baseline - variant) / baseline if baseline > 0 else 0`. -/
def perturbationDrop (baseline variant : ℚ) : ℚ :=
  if 0 < baseline then (baseline - variant) / baseline else 0

/-- The significance check applied to a drop (`if drop > 0.2`). -/
def significantDrop (d : ℚ) : Bool := decide ((0.2 : ℚ) < d)

/-- Outcome of the guarded body of an HTTP-backed query: either a backend
response carrying a status code and the text the success path would
extract from its payload, or an exception raised inside the `try` block
(timeouts, connection failures, JSON and key errors are all caught by the
blanket `except Exception` and carry a message). -/
inductive RequestOutcome where
  | response (status : Nat) (content : List Char)
  | exception (message : List Char)

/-- Tag prefixed by `OpenAIModel.query` to a non-200 status. -/
def apiErrorTag : List Char := "API Error: ".toList

/-- Tag prefixed by `OpenAIModel.query` to a caught exception message. -/
def requestErrorTag : List Char := "Request Error: ".toList

/-- Tag prefixed by `OllamaModel.query` to a non-200 status. -/
def ollamaErrorTag : List Char := "Ollama Error: ".toList

/-- Tag prefixed by `OllamaModel.query` to a caught exception message. -/
def ollamaConnErrorTag : List Char := "Ollama Connection Error: ".toList

/-- Embedding of `OpenAIModel.query`: a total function of the request
outcome — the Python function catches every exception, so it never raises
for transport or backend failure. -/
def openAIQuery (o : RequestOutcome) : List Char :=
  match o with
  | .response status content =>
    if status = 200 then pyStrip content
    else apiErrorTag ++ (Nat.repr status).toList
  | .exception e => requestErrorTag ++ e

/-- Embedding of `OllamaModel.query`: total for the same reason. -/
def ollamaQuery (o : RequestOutcome) : List Char :=
  match o with
  | .response status content =>
    if status = 200 then pyStrip content
    else ollamaErrorTag ++ (Nat.repr status).toList
  | .exception e => ollamaConnErrorTag ++ e

/-- Outcome of the guarded body of `LocalLLM.generate`: the decoded texts
produced by tokenizing, generating and batch-decoding, or an exception
raised anywhere inside the `try` block. -/
inductive GenerateOutcome where
  | decoded (texts : List (List Char))
  | exception (message : List Char)

/-- Embedding of `LocalLLM.generate` on a single (non-batch) prompt: the
success path returns `generated_texts[0]`; every exception inside the
`try` block (including the out-of-range index when no text was decoded)
is caught, logged, and the empty string is returned. -/
def localLLMGenerate (o : GenerateOutcome) : List Char :=
  match o with
  | .decoded texts => texts.headD []
  | .exception _ => []

/-- Embedding of `LocalLLM.generate` on a batch of `numPrompts` prompts:
the success path returns the decoded list; on a caught exception the list
`[""] * len(prompt)` of empty strings is returned. -/
def localLLMGenerateBatch (numPrompts : Nat) (o : GenerateOutcome) : List (List Char) :=
  match o with
  | .decoded texts => texts
  | .exception _ => List.replicate numPrompts []

/-- Embedding of `LocalLLM.query`, which delegates to `generate`. -/
def localLLMQuery (o : GenerateOutcome) : List Char := localLLMGenerate o

/-- A returned text has the error-sentinel shape `<Kind> Error: <detail>`:
the marker "Error: " occurs in it. This is the loosest reading of the
sentinel format — any text without the marker is not a sentinel under any
reading. -/
def isErrorSentinel (s : List Char) : Bool := containsSub s ("Error: ".toList)

theorem containsSub_iff (hay needle : List Char) :
    containsSub hay needle = true ↔ needle <:+: hay := by
  induction hay with
  | nil =>
    simp [containsSub, List.infix_nil]
  | cons c t ih =>
    rw [containsSub]
    simp only [Bool.or_eq_true, ih, List.isPrefixOf_iff_prefix, List.infix_cons_iff]

theorem containsSub_append_left (h r n : List Char) (hc : containsSub h n = true) :
    containsSub (h ++ r) n = true := by
  rw [containsSub_iff] at hc ⊢
  exact hc.trans ⟨[], r, by simp⟩

theorem threshold_iff (n m : Nat) : (4 * n ≤ 5 * m) ↔ ((0.8 : ℚ) * n ≤ m) := by
  rw [show (0.8 : ℚ) = 4 / 5 by norm_num, div_mul_eq_mul_div,
    div_le_iff₀ (by norm_num : (0 : ℚ) < 5)]
  constructor
  · intro hh
    have h2 : ((4 * n : ℕ) : ℚ) ≤ ((5 * m : ℕ) : ℚ) := by exact_mod_cast hh
    push_cast at h2
    linarith
  · intro hh
    have h2 : ((4 * n : ℕ) : ℚ) ≤ ((5 * m : ℕ) : ℚ) := by push_cast; linarith
    exact_mod_cast h2

/-- C1: the logic-puzzle scorer extracts (name, role) pairs by scanning each
known participant name for a role keyword in the 50-character window at the
name's first occurrence in the lowercased expected string, and returns
correct iff the number of extracted pairs whose name and role keyword each
occur independently in the response is at least 0.8 times the number of
extracted pairs; on the spec's two examples it scores correct and incorrect
respectively. -/
theorem checkLogicAnswer_spec :
    (∀ response expected : List Char,
      checkLogicAnswer response expected = true ↔
        (0.8 : ℚ) * (expectedPairsOf (lowerChars expected)).length ≤
          ((expectedPairsOf (lowerChars expected)).countP
            (matchedPair (lowerChars response)) : ℚ)) ∧
    checkLogicAnswer ("(1) Zoey is a knave\n(2) Oliver is a knight".toList)
      ("Zoey is a knave, Oliver is a knight".toList) = true ∧
    checkLogicAnswer ("Zoey is a knave".toList)
      ("Zoey is a knave, Oliver is a knight".toList) = false := by
  refine ⟨fun response expected => ?_, by decide, by decide⟩
  simp only [checkLogicAnswer, decide_eq_true_eq]
  exact threshold_iff _ _

/-- C2: the arithmetic scorer marks a response correct iff the lowercased
expected-answer string is a substring of the lowercased response; with
expected "15", "Step by step: 7 + 8 = 15" is correct and "The answer is 42"
is incorrect. -/
theorem checkArithAnswer_spec :
    (∀ response answer : List Char,
      checkArithAnswer response answer = true ↔
        lowerChars answer <:+: lowerChars response) ∧
    checkArithAnswer ("Step by step: 7 + 8 = 15".toList) ("15".toList) = true ∧
    checkArithAnswer ("The answer is 42".toList) ("15".toList) = false := by
  refine ⟨fun response answer => ?_, by decide, by decide⟩
  rw [checkArithAnswer]
  exact containsSub_iff _ _

/-- C3: the style classifier returns
memory_count / (memory_count + reasoning_count) whenever at least one
sentence unit is classified, and its result always lies in [0, 1]. -/
theorem analyzeMemoryReasoning_spec (response : List Char) :
    (memoryCount response + reasoningCount response ≠ 0 →
      analyzeMemoryReasoning response =
        (memoryCount response : ℚ) /
          (memoryCount response + reasoningCount response)) ∧
    0 ≤ analyzeMemoryReasoning response ∧ analyzeMemoryReasoning response ≤ 1 := by
  rw [analyzeMemoryReasoning]
  by_cases he : (sentenceUnits response).isEmpty
  · rw [if_pos he]
    have hu : sentenceUnits response = [] := List.isEmpty_iff.mp he
    refine ⟨fun hnz => absurd ?_ hnz, by norm_num, by norm_num⟩
    simp [memoryCount, reasoningCount, hu]
  · rw [if_neg he]
    by_cases hz : memoryCount response + reasoningCount response = 0
    · rw [if_pos hz]
      exact ⟨fun hnz => absurd hz hnz, by norm_num, by norm_num⟩
    · rw [if_neg hz]
      have hq : (0 : ℚ) < (memoryCount response : ℚ) + reasoningCount response := by
        exact_mod_cast Nat.pos_of_ne_zero hz
      refine ⟨fun _ => rfl, by positivity, ?_⟩
      rw [div_le_one hq]
      exact le_add_of_nonneg_right (by positivity)

theorem analyzeMemoryReasoning_spec_witness :
    memoryCount ("Therefore the answer follows step by step from the rules.".toList) +
        reasoningCount ("Therefore the answer follows step by step from the rules.".toList) ≠ 0 ∧
    analyzeMemoryReasoning ("Therefore the answer follows step by step from the rules.".toList) =
      (memoryCount ("Therefore the answer follows step by step from the rules.".toList) : ℚ) /
        (memoryCount ("Therefore the answer follows step by step from the rules.".toList) +
          reasoningCount ("Therefore the answer follows step by step from the rules.".toList)) :=
  ⟨by decide,
   (analyzeMemoryReasoning_spec
     ("Therefore the answer follows step by step from the rules.".toList)).1 (by decide)⟩

/-- C4: the perturbation drop equals (baseline - variant) / baseline when
the baseline is positive, is exactly 0 when the baseline is 0 (the guarded
branch, so no division error), and is strictly negative — not clamped —
when a positive baseline is outperformed by the variant. -/
theorem perturbationDrop_spec (baseline variant : ℚ) :
    (0 < baseline →
      perturbationDrop baseline variant = (baseline - variant) / baseline) ∧
    (baseline = 0 → perturbationDrop baseline variant = 0) ∧
    (0 < baseline → baseline < variant → perturbationDrop baseline variant < 0) := by
  refine ⟨fun hb => by rw [perturbationDrop, if_pos hb], fun hb => ?_, fun hb hv => ?_⟩
  · rw [perturbationDrop, if_neg (by rw [hb]; exact lt_irrefl 0)]
  · rw [perturbationDrop, if_pos hb]
    exact div_neg_of_neg_of_pos (by linarith) hb

theorem perturbationDrop_spec_witness :
    perturbationDrop (4 / 5) (1 / 2) = ((4 / 5 : ℚ) - 1 / 2) / (4 / 5) ∧
    perturbationDrop 0 (1 / 2) = 0 ∧
    perturbationDrop (1 / 2) (3 / 4) < 0 :=
  ⟨(perturbationDrop_spec (4 / 5) (1 / 2)).1 (by norm_num),
   (perturbationDrop_spec 0 (1 / 2)).2.1 rfl,
   (perturbationDrop_spec (1 / 2) (3 / 4)).2.2 (by norm_num) (by norm_num)⟩

/-- C5: for baseline accuracy 0.80 and variant accuracy 0.50 the drop is
exactly 0.375 = 3/8, and it is flagged significant under the 0.2
threshold. -/
theorem perturbationDrop_example :
    perturbationDrop 0.80 0.50 = 0.375 ∧ (0.375 : ℚ) = 3 / 8 ∧
    significantDrop (perturbationDrop 0.80 0.50) = true := by
  norm_num [perturbationDrop, significantDrop]

/-- C6 counterexample: on a caught backend failure, `LocalLLM.query`
(which delegates to `LocalLLM.generate`) returns the empty string, which
is not a sentinel of the form "<Kind> Error: <detail>" under any reading
— refuting the claim that every ModelClient.query returns such a sentinel
on failure. -/
theorem localLLMQuery_no_sentinel :
    localLLMQuery (.exception ("CUDA out of memory".toList)) = [] ∧
    isErrorSentinel (localLLMQuery (.exception ("CUDA out of memory".toList))) = false :=
  ⟨rfl, by decide⟩

/-- C6 (amended): every backend query is a total function of the request
outcome — the Python bodies catch all exceptions, so none of them raises
for transport or backend failure; `OpenAIModel.query` and
`OllamaModel.query` return "<Kind> Error: <detail>" sentinel strings on a
non-success status or a caught exception, while `LocalLLM.generate` (and
hence `LocalLLM.query`) instead returns the empty string — a list of
empty strings in batch mode — rather than a descriptive sentinel. -/
theorem modelClientQuery_error_contract (status n : Nat) (content e : List Char) :
    (status ≠ 200 → isErrorSentinel (openAIQuery (.response status content)) = true) ∧
    isErrorSentinel (openAIQuery (.exception e)) = true ∧
    (status ≠ 200 → isErrorSentinel (ollamaQuery (.response status content)) = true) ∧
    isErrorSentinel (ollamaQuery (.exception e)) = true ∧
    localLLMQuery (.exception e) = [] ∧
    localLLMGenerateBatch n (.exception e) = List.replicate n [] := by
  refine ⟨fun hs => ?_, ?_, fun hs => ?_, ?_, rfl, rfl⟩
  · rw [isErrorSentinel, openAIQuery, if_neg hs]
    exact containsSub_append_left _ _ _ (by decide)
  · rw [isErrorSentinel, openAIQuery]
    exact containsSub_append_left _ _ _ (by decide)
  · rw [isErrorSentinel, ollamaQuery, if_neg hs]
    exact containsSub_append_left _ _ _ (by decide)
  · rw [isErrorSentinel, ollamaQuery]
    exact containsSub_append_left _ _ _ (by decide)

theorem modelClientQuery_error_contract_witness :
    isErrorSentinel (openAIQuery (.response 500 [])) = true ∧
    isErrorSentinel (openAIQuery (.exception ("timed out".toList))) = true ∧
    isErrorSentinel (ollamaQuery (.response 500 [])) = true ∧
    isErrorSentinel (ollamaQuery (.exception ("timed out".toList))) = true ∧
    localLLMQuery (.exception ("timed out".toList)) = [] ∧
    localLLMGenerateBatch 2 (.exception ("timed out".toList)) = List.replicate 2 [] :=
  have h := modelClientQuery_error_contract 500 2 [] ("timed out".toList)
  ⟨h.1 (by decide), h.2.1, h.2.2.1 (by decide), h.2.2.2.1, h.2.2.2.2.1, h.2.2.2.2.2⟩

/-- C7: when pair extraction finds no (name, role) pair in the expected
string, the logic scorer accepts every response: the empty requirement
set is vacuously satisfied. -/
theorem checkLogicAnswer_vacuous (response expected : List Char)
    (h : expectedPairsOf (lowerChars expected) = []) :
    checkLogicAnswer response expected = true := by
  simp [checkLogicAnswer, h]

theorem checkLogicAnswer_vacuous_witness :
    expectedPairsOf (lowerChars ("the statements are inconsistent".toList)) = [] ∧
    checkLogicAnswer ("no answer".toList) ("the statements are inconsistent".toList) = true :=
  ⟨by decide, checkLogicAnswer_vacuous ("no answer".toList)
    ("the statements are inconsistent".toList) (by decide)⟩

/-- C8: whenever no sentence unit is classified by either keyword set
(in particular when there are no sentence units at all), the style
classifier returns exactly 0.5 instead of dividing by zero. -/
theorem analyzeMemoryReasoning_neutral (response : List Char)
    (hm : memoryCount response = 0) (hr : reasoningCount response = 0) :
    analyzeMemoryReasoning response = 1 / 2 := by
  simp [analyzeMemoryReasoning, hm, hr]

theorem analyzeMemoryReasoning_neutral_witness :
    memoryCount ("The quick brown fox jumped over a lazy dog".toList) = 0 ∧
    reasoningCount ("The quick brown fox jumped over a lazy dog".toList) = 0 ∧
    analyzeMemoryReasoning ("The quick brown fox jumped over a lazy dog".toList) = 1 / 2 :=
  ⟨by decide, by decide,
   analyzeMemoryReasoning_neutral ("The quick brown fox jumped over a lazy dog".toList)
     (by decide) (by decide)⟩

/-- C9: for every group of scored cases, each case contributes at most one
to the correct count, the aggregate accuracy is correct/total when the
total is positive and 0 by convention when the total is 0, and the
accuracy always lies in [0, 1]. -/
theorem groupAccuracy_spec {α : Type} (score : α → Bool) (cases : List α) :
    correctCount score cases ≤ cases.length ∧
    (0 < cases.length →
      groupAccuracy score cases = (correctCount score cases : ℚ) / cases.length) ∧
    (cases.length = 0 → groupAccuracy score cases = 0) ∧
    0 ≤ groupAccuracy score cases ∧ groupAccuracy score cases ≤ 1 := by
  have hle : correctCount score cases ≤ cases.length := List.countP_le_length score
  refine ⟨hle, fun ht => by rw [groupAccuracy, accuracyOf, if_pos ht], fun ht => ?_, ?_, ?_⟩
  · rw [groupAccuracy, accuracyOf, if_neg (by rw [ht]; exact lt_irrefl 0)]
  · rw [groupAccuracy, accuracyOf]
    by_cases ht : 0 < cases.length
    · rw [if_pos ht]
      positivity
    · rw [if_neg ht]
  · rw [groupAccuracy, accuracyOf]
    by_cases ht : 0 < cases.length
    · rw [if_pos ht, div_le_one (by exact_mod_cast ht)]
      exact_mod_cast hle
    · rw [if_neg ht]
      norm_num

theorem groupAccuracy_spec_witness :
    groupAccuracy (fun r => checkArithAnswer r ("15".toList))
        [("Step by step: 7 + 8 = 15".toList), ("The answer is 42".toList)] =
      (correctCount (fun r => checkArithAnswer r ("15".toList))
          [("Step by step: 7 + 8 = 15".toList), ("The answer is 42".toList)] : ℚ) /
        (([("Step by step: 7 + 8 = 15".toList),
           ("The answer is 42".toList)] : List (List Char)).length) ∧
    groupAccuracy (fun r => checkArithAnswer r ("15".toList)) ([] : List (List Char)) = 0 :=
  ⟨(groupAccuracy_spec (fun r => checkArithAnswer r ("15".toList))
      [("Step by step: 7 + 8 = 15".toList), ("The answer is 42".toList)]).2.1 (by decide),
   (groupAccuracy_spec (fun r => checkArithAnswer r ("15".toList))
      ([] : List (List Char))).2.2.1 rfl⟩

/-- C10: the role test inside pair extraction checks "knight" before
"knave": whenever "knight" occurs anywhere in the 50-character window at a
name's first occurrence, the extracted role for that name is "knight" —
even if the window also holds "knave"; in particular, for the expected
string "Zoey is a knave, Oliver is a knight" the extracted pairs are
(zoey, knight) and (oliver, knight), although the string assigns zoey the
knave role. -/
theorem roleExtraction_knight_first :
    (∀ (expectedLower name : List Char) (i : Nat),
      findSub expectedLower name = some i →
      containsSub ((expectedLower.drop i).take 50) kKnight = true →
      roleInWindow expectedLower name = some kKnight) ∧
    expectedPairsOf (lowerChars ("Zoey is a knave, Oliver is a knight".toList)) =
      [("zoey".toList, kKnight), ("oliver".toList, kKnight)] := by
  refine ⟨fun expectedLower name i hf hk => ?_, by decide⟩
  rw [roleInWindow, hf]
  simp only [hk, if_true]

theorem roleExtraction_knight_first_witness :
    findSub ("zoey is a knave, oliver is a knight".toList) ("zoey".toList) = some 0 ∧
    containsSub ((("zoey is a knave, oliver is a knight".toList).drop 0).take 50)
      kKnight = true ∧
    roleInWindow ("zoey is a knave, oliver is a knight".toList) ("zoey".toList) =
      some kKnight :=
  ⟨by decide, by decide,
   roleExtraction_knight_first.1 ("zoey is a knave, oliver is a knight".toList)
     ("zoey".toList) 0 (by decide) (by decide)⟩
